import Mathlib

/-!
Shallow embedding of the page-interaction script of the portfolio repository
(`script.js`) together with proofs of the behavioural properties of its
components: the scroll-driven active-navigation tracker, the one-shot
intersection-based reveal animator, the skill-bar sizer, the contact-form
handler and the theme manager.

Pixel offsets are modelled as integers, CSS time quantities as rationals,
DOM string attributes as `String`, and the event-driven handlers as pure
functions from their inputs (the live layout, the delivered entries, the
form fields) to the state they produce.
-/

namespace Portfolio

/-! ## Navigation: `NavigationManager.updateActiveNavigation`

The scroll handler reads every `section[id]` in document order, computes a
`current` id, then sets the `active` class on exactly the links whose
`href` matches `"#" ++ current`. -/

/-- A page section as seen by the scroll handler: its `id` attribute and the
`top` of its bounding client rect (pixels from the viewport top). -/
structure SectionEl where
  id : String
  top : Int
  deriving Repr, DecidableEq

/-- A navigation link (`.nav-link`): its `href` attribute and whether its
class list currently contains `active`. -/
structure NavLink where
  href : String
  active : Bool
  deriving Repr, DecidableEq

/-- The `current` accumulation loop of `updateActiveNavigation`:
`let current = ''; sections.forEach(s => { if (s.top <= 150) current = s.id })`. -/
def computeCurrent (sections : List SectionEl) : String :=
  sections.foldl (fun current s => if s.top ≤ 150 then s.id else current) ""

/-- The link-update loop of `updateActiveNavigation`: each link first has
`active` removed, then `active` added exactly when its href equals
`'#' + current`. -/
def updateLinks (current : String) (links : List NavLink) : List NavLink :=
  links.map (fun l =>
    let cleared : NavLink := { l with active := false }
    if l.href = "#" ++ current then { cleared with active := true } else cleared)

/-- One invocation of the scroll handler body of
`NavigationManager.updateActiveNavigation`. -/
def updateActiveNavigation (sections : List SectionEl) (links : List NavLink) :
    List NavLink :=
  updateLinks (computeCurrent sections) links

/-- Number of links carrying the `active` class. -/
def countActive (links : List NavLink) : Nat :=
  (links.filter (fun l => l.active)).length

lemma getLast?_cons_exists {α : Type} (b : α) (m : List α) :
    ∃ x, (b :: m).getLast? = some x := by
  induction m generalizing b with
  | nil => exact ⟨b, rfl⟩
  | cons c m ih => rw [List.getLast?_cons_cons]; exact ih c

lemma computeCurrent_foldl (sections : List SectionEl) (acc : String) :
    sections.foldl (fun current s => if s.top ≤ 150 then s.id else current) acc =
      (((sections.filter (fun s => s.top ≤ 150)).getLast?).map SectionEl.id).getD acc := by
  induction sections generalizing acc with
  | nil => rfl
  | cons a l ih =>
    by_cases ha : a.top ≤ 150
    · rw [List.foldl_cons, if_pos ha, ih,
        List.filter_cons_of_pos (by simpa using ha)]
      cases hl : l.filter (fun s => s.top ≤ 150) with
      | nil => simp [hl]
      | cons b m =>
        rw [List.getLast?_cons_cons]
        obtain ⟨x, hx⟩ := getLast?_cons_exists b m
        rw [hx]
        rfl
    · rw [List.foldl_cons, if_neg ha, ih,
        List.filter_cons_of_neg (by simpa using ha)]

/-- `computeCurrent` returns the id of the last qualifying section, or `""`. -/
lemma computeCurrent_eq (sections : List SectionEl) :
    computeCurrent sections =
      (((sections.filter (fun s => s.top ≤ 150)).getLast?).map SectionEl.id).getD "" :=
  computeCurrent_foldl sections ""

/-- C1: after one invocation of the scroll handler, `current` equals the id of
the last section in document order whose top offset is ≤ 150, and is empty
when no section qualifies (last-match-wins). -/
theorem current_is_last_qualifying_section (sections : List SectionEl) :
    computeCurrent sections =
      (((sections.filter (fun s => s.top ≤ 150)).getLast?).map SectionEl.id).getD "" :=
  computeCurrent_eq sections

/-- The spec example: tops [200, 100, 50, -10] resolve to the key at index 3. -/
theorem current_spec_example :
    computeCurrent
      [⟨"s0", 200⟩, ⟨"s1", 100⟩, ⟨"s2", 50⟩, ⟨"s3", -10⟩] = "s3" := by
  decide

lemma mem_updateActiveNavigation_active (sections : List SectionEl)
    (links : List NavLink) (l : NavLink) (hl : l ∈ updateActiveNavigation sections links) :
    l.active = true ↔ l.href = "#" ++ computeCurrent sections := by
  simp only [updateActiveNavigation, updateLinks, List.mem_map] at hl
  obtain ⟨l₀, _, rfl⟩ := hl
  by_cases h : l₀.href = "#" ++ computeCurrent sections
  · simp [h]
  · simp [h]

lemma countActive_updateLinks (current : String) (links : List NavLink) :
    countActive (updateLinks current links) =
      links.countP (fun l => decide (l.href = "#" ++ current)) := by
  induction links with
  | nil => rfl
  | cons a l ih =>
    simp only [updateLinks, List.map_cons, countActive, List.filter_cons,
      List.countP_cons] at *
    by_cases h : a.href = "#" ++ current
    · simp [h, ih]
    · simp [h, ih]

lemma countActive_le_one_of_nodup (current : String) (links : List NavLink)
    (h : (links.map NavLink.href).Nodup) : countActive (updateLinks current links) ≤ 1 := by
  rw [countActive_updateLinks]
  induction links with
  | nil => simp
  | cons a l ih =>
    simp only [List.map_cons, List.nodup_cons, List.mem_map] at h
    obtain ⟨ha, hl⟩ := h
    rw [List.countP_cons]
    by_cases hmatch : a.href = "#" ++ current
    · have hzero : l.countP (fun l => decide (l.href = "#" ++ current)) = 0 := by
        rw [List.countP_eq_zero]
        intro b hb
        simp only [decide_eq_true_eq]
        intro hbm
        exact ha ⟨b, hb, by rw [hbm, ← hmatch]⟩
      simp [hzero, hmatch]
    · simpa [hmatch] using ih hl

lemma countActive_zero_of_no_match (current : String) (links : List NavLink)
    (h : ∀ l ∈ links, l.href ≠ "#" ++ current) :
    countActive (updateLinks current links) = 0 := by
  rw [countActive_updateLinks, List.countP_eq_zero]
  intro b hb
  simpa using h b hb

/-- C2 counterexample: with no qualifying section (`current` is empty) and two
nav links whose href is the bare `"#"`, the handler leaves BOTH links active,
so neither "at most one link active" nor "current empty implies no link
active" holds as stated. -/
theorem at_most_one_active_counterexample :
    ¬ (countActive
        (updateActiveNavigation []
          [⟨"#", false⟩, ⟨"#", false⟩]) ≤ 1 ∧
       countActive
        (updateActiveNavigation []
          [⟨"#", false⟩, ⟨"#", false⟩]) = 0) := by
  decide

/-- C2 (amended): after one invocation a link is active iff its href equals
`"#" ++ current`; hence when the links' hrefs are pairwise distinct at most
one link is active, and when `current` is empty and no link's href is the
bare `"#"`, no link is active. -/
theorem at_most_one_active_amended (sections : List SectionEl) (links : List NavLink) :
    (∀ l ∈ updateActiveNavigation sections links,
        l.active = true ↔ l.href = "#" ++ computeCurrent sections) ∧
    ((links.map NavLink.href).Nodup →
        countActive (updateActiveNavigation sections links) ≤ 1) ∧
    (computeCurrent sections = "" → (∀ l ∈ links, l.href ≠ "#") →
        countActive (updateActiveNavigation sections links) = 0) := by
  refine ⟨fun l hl => mem_updateActiveNavigation_active sections links l hl,
    fun h => countActive_le_one_of_nodup _ links h, fun hc hn => ?_⟩
  apply countActive_zero_of_no_match
  intro l hl
  rw [hc]
  exact hn l hl

/-- Witness for C2 (amended) at a concrete layout and link set. -/
theorem at_most_one_active_amended_witness :
    countActive
      (updateActiveNavigation [⟨"about", 100⟩]
        [⟨"#about", false⟩, ⟨"#contact", false⟩]) ≤ 1 :=
  (at_most_one_active_amended [⟨"about", 100⟩]
    [⟨"#about", false⟩, ⟨"#contact", false⟩]).2.1 (by decide)

/-- C7: the scroll handler is idempotent — running it a second time on its own
output (same layout, same scroll position) returns that output unchanged; no
state accumulates between calls. -/
theorem updateActiveNavigation_idempotent (sections : List SectionEl)
    (links : List NavLink) :
    updateActiveNavigation sections (updateActiveNavigation sections links) =
      updateActiveNavigation sections links := by
  simp only [updateActiveNavigation, updateLinks, List.map_map]
  apply List.map_congr_left
  intro l _
  by_cases h : l.href = "#" ++ computeCurrent sections
  · simp [Function.comp, h]
  · simp [Function.comp, h]

/-! ## Reveal animation: `AnimationObserver`

`observeElements` styles each eligible element by its 0-based index
(opacity 0, translateY(50px), transition of 0.6s eased, delayed index×0.1s)
and registers it with the intersection observer. The observer callback adds
the `animate-in` class to each intersecting target and unobserves it. The
browser contract guarantees entries are only delivered for observed
targets; the model carries the observed id set explicitly. -/

/-- A reveal-eligible element: its identity, the inline styles written by
`observeElements` (time quantities in seconds as rationals, offsets in px)
and whether its class list contains `animate-in`. -/
structure RevealElem where
  id : Nat
  opacity : ℚ
  translateY : ℚ
  transitionDuration : ℚ
  transitionDelay : ℚ
  animateIn : Bool
  deriving Repr, DecidableEq

/-- The state of `AnimationObserver`: the styled elements and the ids still
observed by the intersection observer. -/
structure RevealState where
  elems : List RevealElem
  observed : List Nat
  deriving Repr, DecidableEq

/-- One entry delivered to the intersection-observer callback. -/
structure Entry where
  target : Nat
  isIntersecting : Bool
  deriving Repr, DecidableEq

/-- `AnimationObserver.observeElements`: element `i` (0-based, document
order) gets opacity 0, a 50px downward offset and a 0.6s transition delayed
by `i * 0.1` seconds; every element is put under observation. -/
def observeElements (ids : List Nat) : RevealState :=
  { elems := ids.mapIdx (fun i id =>
      { id := id, opacity := 0, translateY := 50,
        transitionDuration := 6/10, transitionDelay := i * (1/10),
        animateIn := false })
    observed := ids }

/-- `classList.add('animate-in')` on every element with the given id. -/
def addAnimateIn (elems : List RevealElem) (t : Nat) : List RevealElem :=
  elems.map (fun e => if e.id = t then { e with animateIn := true } else e)

/-- The `IntersectionObserver` callback of `AnimationObserver.createObserver`:
for each intersecting entry, add `animate-in` to the target and unobserve
it; non-intersecting entries are ignored. -/
def intersectionCallback (s : RevealState) (entries : List Entry) : RevealState :=
  entries.foldl
    (fun st e =>
      if e.isIntersecting then
        { elems := addAnimateIn st.elems e.target,
          observed := st.observed.erase e.target }
      else st)
    s

/-- What one (or several) callback invocations can do to a single element:
leave it alone, or add the `animate-in` class and nothing else. -/
def RevealStep (a b : RevealElem) : Prop :=
  b = a ∨ b = { a with animateIn := true }

lemma revealStep_trans {a b c : RevealElem} (h1 : RevealStep a b)
    (h2 : RevealStep b c) : RevealStep a c := by
  rcases h1 with rfl | rfl
  · exact h2
  · rcases h2 with rfl | rfl
    · exact Or.inr rfl
    · exact Or.inr rfl

lemma forall₂_revealStep_refl (l : List RevealElem) :
    List.Forall₂ RevealStep l l := by
  induction l with
  | nil => exact List.Forall₂.nil
  | cons a l ih => exact List.Forall₂.cons (Or.inl rfl) ih

lemma forall₂_revealStep_trans {x y z : List RevealElem}
    (h1 : List.Forall₂ RevealStep x y) (h2 : List.Forall₂ RevealStep y z) :
    List.Forall₂ RevealStep x z := by
  induction h1 generalizing z with
  | nil => cases h2; exact List.Forall₂.nil
  | cons hab _ ih =>
    cases h2 with
    | cons hbc h2t => exact List.Forall₂.cons (revealStep_trans hab hbc) (ih h2t)

lemma addAnimateIn_rel (elems : List RevealElem) (t : Nat) :
    List.Forall₂ RevealStep elems (addAnimateIn elems t) := by
  induction elems with
  | nil => exact List.Forall₂.nil
  | cons a l ih =>
    refine List.Forall₂.cons ?_ ih
    by_cases h : a.id = t
    · simp only [addAnimateIn, List.map_cons, if_pos h]
      exact Or.inr rfl
    · simp only [addAnimateIn, List.map_cons, if_neg h]
      exact Or.inl rfl

lemma addAnimateIn_marks (elems : List RevealElem) (t : Nat) :
    ∀ e ∈ addAnimateIn elems t, e.id = t → e.animateIn = true := by
  intro e he hid
  simp only [addAnimateIn, List.mem_map] at he
  obtain ⟨a, _, rfl⟩ := he
  by_cases h : a.id = t
  · simp [h]
  · simp only [if_neg h] at hid ⊢
    exact absurd hid h

/-- The callback relates input and output element lists pointwise by
`RevealStep`: ids and inline styles are untouched, and `animate-in` only
ever gets added. -/
lemma intersectionCallback_rel (entries : List Entry) (s : RevealState) :
    List.Forall₂ RevealStep s.elems (intersectionCallback s entries).elems := by
  induction entries generalizing s with
  | nil => exact forall₂_revealStep_refl s.elems
  | cons e es ih =>
    simp only [intersectionCallback, List.foldl_cons]
    by_cases he : e.isIntersecting = true
    · rw [if_pos he]
      exact forall₂_revealStep_trans (addAnimateIn_rel s.elems e.target)
        (ih { elems := addAnimateIn s.elems e.target,
              observed := s.observed.erase e.target })
    · rw [if_neg he]
      exact ih s

/-- The observed id set only ever shrinks across a callback invocation. -/
lemma intersectionCallback_observed_subset (entries : List Entry) (s : RevealState) :
    (intersectionCallback s entries).observed ⊆ s.observed := by
  induction entries generalizing s with
  | nil => exact fun a ha => ha
  | cons e es ih =>
    simp only [intersectionCallback, List.foldl_cons]
    by_cases he : e.isIntersecting = true
    · rw [if_pos he]
      exact fun a ha =>
        List.erase_subset _ _
          (ih { elems := addAnimateIn s.elems e.target,
                observed := s.observed.erase e.target } ha)
    · rw [if_neg he]
      exact ih s

lemma intersectionCallback_observed_nodup (entries : List Entry) (s : RevealState)
    (h : s.observed.Nodup) : (intersectionCallback s entries).observed.Nodup := by
  induction entries generalizing s with
  | nil => exact h
  | cons e es ih =>
    simp only [intersectionCallback, List.foldl_cons]
    by_cases he : e.isIntersecting = true
    · rw [if_pos he]
      exact ih { elems := addAnimateIn s.elems e.target,
                 observed := s.observed.erase e.target } (h.erase e.target)
    · rw [if_neg he]
      exact ih s h

lemma forall₂_mem_right {α β : Type} {R : α → β → Prop} {l₁ : List α} {l₂ : List β}
    (h : List.Forall₂ R l₁ l₂) : ∀ b ∈ l₂, ∃ a ∈ l₁, R a b := by
  induction h with
  | nil => intro b hb; exact absurd hb (List.not_mem_nil b)
  | cons hab _ ih =>
    intro b hb
    rcases List.mem_cons.mp hb with rfl | hb
    · exact ⟨_, List.mem_cons_self _ _, hab⟩
    · obtain ⟨a, ha, har⟩ := ih b hb
      exact ⟨a, List.mem_cons_of_mem _ ha, har⟩

/-- Once a target is reported intersecting, it is out of the observed set
when the callback returns. -/
lemma intersectionCallback_unobserves (entries : List Entry) (s : RevealState)
    (hnd : s.observed.Nodup) (t : Nat) (ht : (⟨t, true⟩ : Entry) ∈ entries) :
    t ∉ (intersectionCallback s entries).observed := by
  induction entries generalizing s with
  | nil => exact absurd ht (List.not_mem_nil _)
  | cons e es ih =>
    rcases List.mem_cons.mp ht with rfl | ht
    · simp only [intersectionCallback, List.foldl_cons, if_pos]
      intro hmem
      exact hnd.not_mem_erase
        (intersectionCallback_observed_subset es
          { elems := addAnimateIn s.elems t, observed := s.observed.erase t } hmem)
    · simp only [intersectionCallback, List.foldl_cons]
      by_cases he : e.isIntersecting = true
      · rw [if_pos he]
        exact ih { elems := addAnimateIn s.elems e.target,
                   observed := s.observed.erase e.target } (hnd.erase e.target) ht
      · rw [if_neg he]
        exact ih s hnd ht

/-- Once a target is reported intersecting, every element with its id has
the `animate-in` class when the callback returns. -/
lemma intersectionCallback_marks (entries : List Entry) (s : RevealState)
    (t : Nat) (ht : (⟨t, true⟩ : Entry) ∈ entries) :
    ∀ e ∈ (intersectionCallback s entries).elems, e.id = t → e.animateIn = true := by
  induction entries generalizing s with
  | nil => exact absurd ht (List.not_mem_nil _)
  | cons e es ih =>
    rcases List.mem_cons.mp ht with rfl | ht
    · simp only [intersectionCallback, List.foldl_cons, if_pos]
      intro b hb hid
      have hrel := intersectionCallback_rel es
        { elems := addAnimateIn s.elems t, observed := s.observed.erase t }
      obtain ⟨a, ha, har⟩ := forall₂_mem_right hrel b hb
      have haid : b.id = a.id := by
        rcases har with rfl | rfl
        · rfl
        · rfl
      have hamark : a.animateIn = true :=
        addAnimateIn_marks s.elems t a ha (by rw [← haid, hid])
      rcases har with rfl | rfl
      · exact hamark
      · rfl
    · simp only [intersectionCallback, List.foldl_cons]
      by_cases he : e.isIntersecting = true
      · rw [if_pos he]
        exact ih { elems := addAnimateIn s.elems e.target,
                   observed := s.observed.erase e.target } ht
      · rw [if_neg he]
        exact ih s ht

/-- C3: the pending-to-triggered transition is one-shot. Over any callback
invocation: the observed set never gains members; a target reported
intersecting ends up with the `animate-in` class and out of observation; and
every element pointwise either stays as it was or only gains `animate-in` —
in particular an already-visible element stays visible, so a later
intersection report for it cannot re-run the transition. -/
theorem reveal_transition_one_shot (s : RevealState) (entries : List Entry)
    (hnd : s.observed.Nodup) :
    ((intersectionCallback s entries).observed ⊆ s.observed) ∧
    (∀ t, (⟨t, true⟩ : Entry) ∈ entries →
        t ∉ (intersectionCallback s entries).observed ∧
        ∀ e ∈ (intersectionCallback s entries).elems, e.id = t → e.animateIn = true) ∧
    List.Forall₂
      (fun a b => b.id = a.id ∧ (a.animateIn = true → b.animateIn = true))
      s.elems (intersectionCallback s entries).elems := by
  refine ⟨intersectionCallback_observed_subset entries s,
    fun t ht => ⟨intersectionCallback_unobserves entries s hnd t ht,
      intersectionCallback_marks entries s t ht⟩, ?_⟩
  refine (intersectionCallback_rel entries s).imp ?_
  intro a b hab
  rcases hab with rfl | rfl
  · exact ⟨rfl, fun h => h⟩
  · exact ⟨rfl, fun _ => rfl⟩

/-- Witness for C3: two elements, the first reported intersecting; it is
marked visible and unobserved, and a second delivery for it leaves its state
visible. -/
theorem reveal_transition_one_shot_witness :
    ([7] : List Nat).Nodup ∧
      7 ∉ (intersectionCallback
            { elems := [⟨7, 0, 50, 6/10, 0, false⟩], observed := [7] }
            [⟨7, true⟩]).observed :=
  ⟨by decide,
    ((reveal_transition_one_shot
        { elems := [⟨7, 0, 50, 6/10, 0, false⟩], observed := [7] }
        [⟨7, true⟩] (by decide)).2.1 7 (by decide)).1⟩

lemma intersectionCallback_elems_length (entries : List Entry) (s : RevealState) :
    (intersectionCallback s entries).elems.length = s.elems.length :=
  (intersectionCallback_rel entries s).length_eq.symm

/-- C5: after initialization over `N` elements, the element at 0-based index
`i` carries opacity 0, a 50px downward offset, and a 0.6s transition delayed
by `i × 0.1` seconds; and the transition delay at index `i` is unchanged by
any later sequence of intersection deliveries, i.e. it depends only on the
element's fixed index, never on intersection order. -/
theorem reveal_initial_styles_and_stagger (ids : List Nat) (i : Nat)
    (hi : i < ids.length) :
    ((observeElements ids).elems.get
        ⟨i, by simpa [observeElements, List.length_mapIdx] using hi⟩ =
      { id := ids.get ⟨i, hi⟩, opacity := 0, translateY := 50,
        transitionDuration := 6/10, transitionDelay := i * (1/10),
        animateIn := false }) ∧
    ∀ entries (hi2 : i < (intersectionCallback (observeElements ids) entries).elems.length),
      ((intersectionCallback (observeElements ids) entries).elems.get
          ⟨i, hi2⟩).transitionDelay = i * (1/10) := by
  have hlen : i < (observeElements ids).elems.length := by
    simpa [observeElements, List.length_mapIdx] using hi
  have hget : (observeElements ids).elems.get ⟨i, hlen⟩ =
      { id := ids.get ⟨i, hi⟩, opacity := 0, translateY := 50,
        transitionDuration := 6/10, transitionDelay := i * (1/10),
        animateIn := false } := by
    simp only [observeElements]
    rw [List.get_mapIdx ids _ i hi]
  refine ⟨hget, fun entries hi2 => ?_⟩
  have hrel := intersectionCallback_rel entries (observeElements ids)
  have hstep := hrel.get (i := i) hlen hi2
  have hdelay :
      ((intersectionCallback (observeElements ids) entries).elems.get
        ⟨i, hi2⟩).transitionDelay =
      ((observeElements ids).elems.get ⟨i, hlen⟩).transitionDelay := by
    rcases hstep with h | h
    · rw [h]
    · rw [h]
  rw [hdelay, hget]

/-- Witness for C5 at a concrete element list and entry sequence. -/
theorem reveal_initial_styles_and_stagger_witness :
    ((observeElements [10, 11, 12]).elems.get ⟨2, by decide⟩ =
      { id := 12, opacity := 0, translateY := 50, transitionDuration := 6/10,
        transitionDelay := 2 * (1/10), animateIn := false }) ∧
    ((intersectionCallback (observeElements [10, 11, 12])
        [⟨12, true⟩, ⟨10, true⟩]).elems.get ⟨2, by decide⟩).transitionDelay =
      2 * (1/10) := by
  have h := reveal_initial_styles_and_stagger [10, 11, 12] 2 (by decide)
  exact ⟨h.1, h.2 [⟨12, true⟩, ⟨10, true⟩] (by decide)⟩

/-! ## Contact form: `ContactFormManager`

`handleFormSubmission` reads the three fields, validates them non-empty,
enters the loading state, awaits `submitForm`, shows a success or error
toast, resets the form on success, and restores the non-loading state in a
`finally` branch. The handler is embedded as the trace of UI effects it
performs, parametrised by the outcome of the awaited submission; JS falsy
emptiness of a field is the empty string. -/

inductive ToastKind where
  | success
  | error
  deriving Repr, DecidableEq

/-- The UI effects the form handler can perform, in order. -/
inductive FormEvent where
  | showToast (kind : ToastKind)
  | setLoading (loading : Bool)
  | resetForm
  deriving Repr, DecidableEq

/-- The three form fields read from `FormData` (a missing or empty field is
the empty string, the falsy case of the JS guard). -/
structure FormFields where
  name : String
  email : String
  message : String
  deriving Repr, DecidableEq

/-- `ContactFormManager.submitForm`: the promise unconditionally resolves
after the simulated 2s delay; there is no rejection path. -/
def submitForm (_data : FormFields) : Except Unit Unit :=
  Except.ok ()

/-- The effect trace of `ContactFormManager.handleFormSubmission`, given the
outcome of the awaited `submitForm` call. -/
def handleFormSubmissionWith (fields : FormFields) (outcome : Except Unit Unit) :
    List FormEvent :=
  if fields.name = "" ∨ fields.email = "" ∨ fields.message = "" then
    [FormEvent.showToast ToastKind.error]
  else
    [FormEvent.setLoading true] ++
      (match outcome with
        | Except.ok _ =>
            [FormEvent.showToast ToastKind.success, FormEvent.resetForm]
        | Except.error _ => [FormEvent.showToast ToastKind.error]) ++
      [FormEvent.setLoading false]

/-- `handleFormSubmission` as executed: the outcome is whatever
`submitForm` produces. -/
def handleFormSubmission (fields : FormFields) : List FormEvent :=
  handleFormSubmissionWith fields (submitForm fields)

/-- The form contents after the handler's trace has run (`form.reset()`
clears all three fields; nothing else writes them). -/
def formAfter (fields : FormFields) (events : List FormEvent) : FormFields :=
  events.foldl
    (fun fs e =>
      match e with
      | FormEvent.resetForm => ⟨"", "", ""⟩
      | _ => fs)
    fields

/-- The submit button presentation: which label is displayed and whether the
button is disabled. -/
structure ButtonState where
  btnTextShown : Bool
  btnLoadingShown : Bool
  disabled : Bool
  deriving Repr, DecidableEq

/-- `ContactFormManager.setLoadingState`: loading hides the normal label,
shows the loading label and disables the button; non-loading restores all
three. The result ignores the prior presentation. -/
def setLoadingState (loading : Bool) : ButtonState :=
  if loading then ⟨false, true, true⟩ else ⟨true, false, false⟩

/-- The button presentation after the handler's trace has run. -/
def buttonAfter (init : ButtonState) (events : List FormEvent) : ButtonState :=
  events.foldl
    (fun st e =>
      match e with
      | FormEvent.setLoading b => setLoadingState b
      | _ => st)
    init

/-- C4: with an empty field the handler shows an error toast at once, never
enters the loading state and leaves the form contents alone; with all three
fields non-empty it enters the loading state and then either (success)
shows the success toast and resets the form, or (failure) shows the error
toast and preserves the form contents. -/
theorem form_submission_validation (fields : FormFields) (outcome : Except Unit Unit) :
    ((fields.name = "" ∨ fields.email = "" ∨ fields.message = "") →
        handleFormSubmissionWith fields outcome =
            [FormEvent.showToast ToastKind.error] ∧
        (∀ b, FormEvent.setLoading b ∉ handleFormSubmissionWith fields outcome) ∧
        formAfter fields (handleFormSubmissionWith fields outcome) = fields) ∧
    (¬ (fields.name = "" ∨ fields.email = "" ∨ fields.message = "") →
        FormEvent.setLoading true ∈ handleFormSubmissionWith fields outcome ∧
        (outcome = Except.ok () →
            FormEvent.showToast ToastKind.success ∈
                handleFormSubmissionWith fields outcome ∧
            formAfter fields (handleFormSubmissionWith fields outcome) =
              ⟨"", "", ""⟩) ∧
        (∀ u, outcome = Except.error u →
            FormEvent.showToast ToastKind.error ∈
                handleFormSubmissionWith fields outcome ∧
            formAfter fields (handleFormSubmissionWith fields outcome) = fields)) := by
  constructor
  · intro hempty
    simp only [handleFormSubmissionWith]
    rw [if_pos hempty]
    refine ⟨rfl, ?_, rfl⟩
    intro b hb
    simp at hb
  · intro hfull
    simp only [handleFormSubmissionWith]
    rw [if_neg hfull]
    refine ⟨by simp, ?_, ?_⟩
    · rintro rfl
      exact ⟨by simp, rfl⟩
    · rintro u rfl
      exact ⟨by simp, rfl⟩

/-- Witness for C4: a concrete valid submission with the real (always
successful) outcome, and a concrete invalid one. -/
theorem form_submission_validation_witness :
    (FormEvent.setLoading true ∈
        handleFormSubmissionWith ⟨"Ana", "a@b.c", "hola"⟩ (Except.ok ())) ∧
    formAfter ⟨"Ana", "a@b.c", ""⟩
        (handleFormSubmissionWith ⟨"Ana", "a@b.c", ""⟩ (Except.ok ())) =
      ⟨"Ana", "a@b.c", ""⟩ :=
  ⟨((form_submission_validation ⟨"Ana", "a@b.c", "hola"⟩ (Except.ok ())).2
      (by simp)).1,
    ((form_submission_validation ⟨"Ana", "a@b.c", ""⟩ (Except.ok ())).1
      (by simp)).2.2⟩

/-- C9: `submitForm` always resolves, so the catch branch of the handler is
dead for every validated submission: the trace shows the success toast and
the form reset, and never contains the error toast. -/
theorem submit_never_rejects (fields : FormFields) :
    submitForm fields = Except.ok () ∧
    (¬ (fields.name = "" ∨ fields.email = "" ∨ fields.message = "") →
        handleFormSubmission fields =
          [FormEvent.setLoading true, FormEvent.showToast ToastKind.success,
            FormEvent.resetForm, FormEvent.setLoading false] ∧
        FormEvent.showToast ToastKind.error ∉ handleFormSubmission fields) := by
  refine ⟨rfl, fun hfull => ?_⟩
  simp only [handleFormSubmission, submitForm, handleFormSubmissionWith]
  rw [if_neg hfull]
  refine ⟨rfl, ?_⟩
  simp

/-- Witness for C9 at a concrete validated submission. -/
theorem submit_never_rejects_witness :
    handleFormSubmission ⟨"Ana", "a@b.c", "hola"⟩ =
      [FormEvent.setLoading true, FormEvent.showToast ToastKind.success,
        FormEvent.resetForm, FormEvent.setLoading false] :=
  ((submit_never_rejects ⟨"Ana", "a@b.c", "hola"⟩).2 (by simp)).1

/-- C10: on every path that entered the loading state — success or failure
of the awaited submission alike — the `finally` branch leaves the button
re-enabled, the loading label hidden and the normal label shown. -/
theorem loading_state_always_cleared (fields : FormFields)
    (outcome : Except Unit Unit) (init : ButtonState)
    (hentered : FormEvent.setLoading true ∈ handleFormSubmissionWith fields outcome) :
    buttonAfter init (handleFormSubmissionWith fields outcome) =
      ⟨true, false, false⟩ := by
  by_cases hempty : fields.name = "" ∨ fields.email = "" ∨ fields.message = ""
  · simp only [handleFormSubmissionWith] at hentered
    rw [if_pos hempty] at hentered
    simp at hentered
  · simp only [handleFormSubmissionWith]
    rw [if_neg hempty]
    cases outcome with
    | ok u => rfl
    | error u => rfl

/-- Witness for C10: a concrete validated submission whose failure outcome
still ends with the button restored. -/
theorem loading_state_always_cleared_witness :
    buttonAfter ⟨true, false, false⟩
        (handleFormSubmissionWith ⟨"Ana", "a@b.c", "hola"⟩ (Except.error ())) =
      ⟨true, false, false⟩ :=
  loading_state_always_cleared ⟨"Ana", "a@b.c", "hola"⟩ (Except.error ())
    ⟨true, false, false⟩ (by simp [handleFormSubmissionWith])

/-! ## Theme store: `ThemeManager`

The constructor reads `localStorage.getItem('theme')`, falling back to
`"light"` when the stored value is falsy (absent or empty); `setTheme`
writes the `data-theme` attribute, persists under the `'theme'` key and
caches the value; the toggle button's click handler flips
light ↔ dark. States reachable by page loads and toggle clicks starting
from empty storage are modelled by an event fold. -/

/-- The theme-relevant browser state: the `'theme'` key of localStorage, the
`data-theme` attribute of the document element, and the manager's cached
`currentTheme`. -/
structure ThemeState where
  stored : Option String
  attr : Option String
  currentTheme : String
  deriving Repr, DecidableEq

/-- `ThemeManager.setTheme`: apply the attribute, persist, cache. -/
def setTheme (theme : String) (_s : ThemeState) : ThemeState :=
  { stored := some theme, attr := some theme, currentTheme := theme }

/-- `ThemeManager.toggle` (the click handler of the toggle control). -/
def toggleTheme (s : ThemeState) : ThemeState :=
  setTheme (if s.currentTheme = "light" then "dark" else "light") s

/-- `ThemeManager` construction on page load: `getItem('theme') || 'light'`
(absent and empty string are both falsy), then `setTheme` on the result. -/
def themeInit (stored : Option String) : ThemeState :=
  let ct :=
    match stored with
    | some t => if t = "" then "light" else t
    | none => "light"
  setTheme ct { stored := stored, attr := none, currentTheme := ct }

/-- Events that drive the theme store after the first page load. -/
inductive ThemeEvent where
  | pageLoad
  | click
  deriving Repr, DecidableEq

def themeStep (s : ThemeState) (e : ThemeEvent) : ThemeState :=
  match e with
  | ThemeEvent.pageLoad => themeInit s.stored
  | ThemeEvent.click => toggleTheme s

/-- The theme state after the first page load on empty storage followed by
any sequence of further page loads and toggle clicks. -/
def themeRun (events : List ThemeEvent) : ThemeState :=
  events.foldl themeStep (themeInit none)

/-- The invariant of reachable theme states: the cached theme is one of the
two legal values and storage mirrors it. -/
def ThemeInv (s : ThemeState) : Prop :=
  (s.currentTheme = "light" ∨ s.currentTheme = "dark") ∧
    s.stored = some s.currentTheme

lemma themeStep_inv (s : ThemeState) (h : ThemeInv s) (e : ThemeEvent) :
    ThemeInv (themeStep s e) := by
  obtain ⟨hlight, hstored⟩ := h
  cases e with
  | pageLoad =>
    rcases hlight with hl | hd
    · simp [themeStep, themeInit, setTheme, ThemeInv, hstored, hl]
    · simp [themeStep, themeInit, setTheme, ThemeInv, hstored, hd]
  | click =>
    rcases hlight with hl | hd
    · simp [themeStep, toggleTheme, setTheme, ThemeInv, hl]
    · simp [themeStep, toggleTheme, setTheme, ThemeInv, hd]

lemma themeFold_inv (events : List ThemeEvent) (s : ThemeState) (h : ThemeInv s) :
    ThemeInv (events.foldl themeStep s) := by
  induction events generalizing s with
  | nil => exact h
  | cons e es ih => exact ih (themeStep s e) (themeStep_inv s h e)

lemma themeRun_inv (events : List ThemeEvent) : ThemeInv (themeRun events) := by
  have hstart : ThemeInv (themeInit none) := by
    simp [themeInit, setTheme, ThemeInv]
  exact themeFold_inv events (themeInit none) hstart

/-- C8: in every reachable state the stored theme (what `get()` returns) is
one of `"light"` and `"dark"`; `setTheme` persists its argument under the
fixed key and applies it as the document theme attribute; a toggle click
maps `"light"` to `"dark"` and `"dark"` to `"light"`; and two consecutive
toggle clicks restore the reachable state's theme. -/
theorem theme_store_contract :
    (∀ events, (themeRun events).currentTheme = "light" ∨
        (themeRun events).currentTheme = "dark") ∧
    (∀ theme s, (setTheme theme s).stored = some theme ∧
        (setTheme theme s).attr = some theme ∧
        (setTheme theme s).currentTheme = theme) ∧
    (∀ s, s.currentTheme = "light" → (toggleTheme s).currentTheme = "dark") ∧
    (∀ s, s.currentTheme = "dark" → (toggleTheme s).currentTheme = "light") ∧
    (∀ events, (toggleTheme (toggleTheme (themeRun events))).currentTheme =
        (themeRun events).currentTheme) := by
  refine ⟨fun events => (themeRun_inv events).1,
    fun theme s => ⟨rfl, rfl, rfl⟩,
    fun s hl => by simp [toggleTheme, setTheme, hl],
    fun s hd => by simp [toggleTheme, setTheme, hd],
    fun events => ?_⟩
  rcases (themeRun_inv events).1 with hl | hd
  · simp [toggleTheme, setTheme, hl]
  · simp [toggleTheme, setTheme, hd]

/-- Witness for C8: after a page load and one toggle click the theme is
dark, and two further clicks keep an in-range theme. -/
theorem theme_store_contract_witness :
    ((themeRun [ThemeEvent.click]).currentTheme = "light" ∨
        (themeRun [ThemeEvent.click]).currentTheme = "dark") ∧
    (toggleTheme ⟨some "light", some "light", "light"⟩).currentTheme = "dark" ∧
    (toggleTheme ⟨some "dark", some "dark", "dark"⟩).currentTheme = "light" ∧
    (toggleTheme (toggleTheme (themeRun [ThemeEvent.click]))).currentTheme =
      (themeRun [ThemeEvent.click]).currentTheme :=
  ⟨theme_store_contract.1 [ThemeEvent.click],
    theme_store_contract.2.2.1 ⟨some "light", some "light", "light"⟩ rfl,
    theme_store_contract.2.2.2.1 ⟨some "dark", some "dark", "dark"⟩ rfl,
    theme_store_contract.2.2.2.2 [ThemeEvent.click]⟩

/-! ## Skill bars: `SkillsAnimator.animateSkillBars` and the resize handler

The resize handler (debounced by 250ms) re-reads each `.skill-progress`
bar's `data-level` attribute and rewrites its inline width, but only when
the current inline width is not `'0%'`. -/

/-- A skill bar: its `data-level` attribute and its inline `style.width`. -/
structure SkillBar where
  level : String
  width : String
  deriving Repr, DecidableEq

/-- Modelled from the spec: the page markup (not under `src/`) gives every
skill bar the unrevealed initial inline width `"0%"`; the spec's resize
contract ("re-applied … for any bar already revealed") presupposes exactly
this initial state. -/
def initialBarWidth : String := "0%"

/-- `SkillsAnimator.animateSkillBars` (ignoring the 100ms stagger timing):
each bar's width becomes its `data-level` percentage. -/
def animateSkillBars (bars : List SkillBar) : List SkillBar :=
  bars.map (fun b => { b with width := b.level ++ "%" })

/-- The body of the debounced resize handler for one bar. -/
def resizeBar (b : SkillBar) : SkillBar :=
  if b.width ≠ "0%" then { b with width := b.level ++ "%" } else b

/-- The body of the debounced resize handler. -/
def handleResize (bars : List SkillBar) : List SkillBar :=
  bars.map resizeBar

/-- C6: after the debounce fires, the handler leaves every not-yet-revealed
bar (inline width still the initial `"0%"`) unchanged, and every revealed
bar (width previously applied from its `data-level` attribute) keeps
exactly the attribute-derived width; in particular resizing a fully
revealed bar list is a no-op. -/
theorem resize_reapplies_only_revealed (bars : List SkillBar) :
    (∀ b ∈ bars, b.width = initialBarWidth → resizeBar b = b) ∧
    (∀ b ∈ bars, b.width = b.level ++ "%" →
        (resizeBar b).width = b.level ++ "%") ∧
    handleResize (animateSkillBars bars) = animateSkillBars bars := by
  refine ⟨fun b _ hb => ?_, fun b _ hb => ?_, ?_⟩
  · rw [resizeBar, if_neg]
    simp [hb, initialBarWidth]
  · rw [resizeBar]
    by_cases h : b.width ≠ "0%"
    · rw [if_pos h]
    · rw [if_neg h, hb]
  · rw [handleResize, animateSkillBars, List.map_map]
    apply List.map_congr_left
    intro b _
    simp only [Function.comp, resizeBar]
    by_cases h : b.level ++ "%" ≠ "0%"
    · rw [if_pos h]
    · rw [if_neg h]

/-- Witness for C6: a revealed bar keeps its attribute width, an unrevealed
bar is untouched. -/
theorem resize_reapplies_only_revealed_witness :
    resizeBar ⟨"80", "0%"⟩ = ⟨"80", "0%"⟩ ∧
    (resizeBar ⟨"80", "80%"⟩).width = "80%" :=
  ⟨(resize_reapplies_only_revealed [⟨"80", "0%"⟩]).1 ⟨"80", "0%"⟩
      (by decide) rfl,
    (resize_reapplies_only_revealed [⟨"80", "80%"⟩]).2.1 ⟨"80", "80%"⟩
      (by decide) rfl⟩

end Portfolio
